import Mathlib

/-!
Shallow embedding of the shift circuit-breaker package (github.com/mustafaturan/shift),
newer Shift implementation: shift.go, option.go, invokers.go, handlers.go,
counter/time_bucket_counter.go.

Conventions of the embedding:
* Machine integers (uint32) are Nat with explicit reduction modulo 2^32 at each
  operation, mirroring Go overflow semantics.
* float32 threshold arithmetic in the opener and closer handlers is modelled as
  exact rational arithmetic over the same formula.
* Real time is not modelled; the open-to-half-open scheduler (time.AfterFunc) is
  modelled by an armed flag plus an explicit firing step, and the counter
  rotation task by an explicit drop step, which is how the Go callbacks run.
* External collaborators (restrictors, user operations, user handlers) are
  modelled by their observable outcomes: a restrictor by the result of its Check
  call, the operation by its outcome (success, failure, or deadline expiry),
  user handlers by opaque identifiers whose invocations are logged.
* The breaker counter is instrumented: besides the resettable aggregates it
  keeps the full list of increment events, so that per-call metric accounting
  can be stated independently of later resets.
-/

namespace ShiftModel

/-- 2^32, the modulus of Go uint32 arithmetic. -/
def W : Nat := 2 ^ 32

/-- Go uint32 addition. -/
def u32add (a b : Nat) : Nat := (a + b) % W

/-- Go uint32 subtraction (wrapping). -/
def u32sub (a b : Nat) : Nat := (a % W + (W - b % W)) % W

/-- State circuit breaker state holder; Go constants StateUnknown, StateClose,
StateHalfOpen, StateOpen. -/
inductive State
  | unknown
  | closed
  | halfOpen
  | opened
deriving DecidableEq, Repr

/-- Go State.isClose. -/
def State.isClose (s : State) : Bool := s == .closed

/-- Go State.isHalfOpen. -/
def State.isHalfOpen (s : State) : Bool := s == .halfOpen

/-- Go State.isOpen. -/
def State.isOpen (s : State) : Bool := s == .opened

/-- Metric name constants from the shift package. -/
def metricSuccess : String := "success"

def metricFailure : String := "failure"

def metricTimeout : String := "timeout"

def metricReject : String := "reject"

/-- Stats is a structure which holds cb invocation metrics (uint32 fields). -/
structure Stats where
  SuccessCount : Nat
  FailureCount : Nat
  TimeoutCount : Nat
  RejectCount : Nat
deriving DecidableEq, Repr

/-- Error taxonomy of the shift package (errors.go), as a closed datatype.
The invocation constructor wraps the inner error (the wrap site in
runWithCallbacks only runs for a non-nil inner error). -/
inductive GoError
  | invalidOption (name message : String)
  | unknownState (state : State)
  | isAlreadyInDesiredState (name : String) (state : State)
  | isOnOpenState
  | invocation (name : String) (err : GoError)
  | invocationTimeout
  | failureThresholdReached
  | userError (id : Nat)
deriving DecidableEq, Repr

/-- A failure handler: either an auto-trip opener closure produced by
WithOpener (carrying its thresholds) or an opaque user handler. -/
inductive FailureHandler
  | opener (minSuccessRatio : ℚ) (minRequests : Nat)
  | user (id : Nat)
deriving DecidableEq, Repr

/-- A success handler: either the auto-trip closer closure produced by
WithCloser or an opaque user handler. -/
inductive SuccessHandler
  | closer (minSuccessRatio : ℚ) (minRequests : Nat)
  | user (id : Nat)
deriving DecidableEq, Repr

/-- The breaker counter, instrumented: the four aggregates the shift package
increments (reset sets them to zero) plus the permanent log of increment
events used to account per-call increments. -/
structure CounterM where
  success : Nat
  failure : Nat
  timeout : Nat
  reject : Nat
  events : List String
deriving DecidableEq, Repr

/-- Counter.Increment for the four metric names used by the shift package. -/
def CounterM.increment (c : CounterM) (m : String) : CounterM :=
  let c := { c with events := c.events ++ [m] }
  if m = metricSuccess then { c with success := u32add c.success 1 }
  else if m = metricFailure then { c with failure := u32add c.failure 1 }
  else if m = metricTimeout then { c with timeout := u32add c.timeout 1 }
  else if m = metricReject then { c with reject := u32add c.reject 1 }
  else c

/-- Counter.Reset: zero the aggregates (the event log is model instrumentation
and is kept). -/
def CounterM.reset (c : CounterM) : CounterM :=
  { c with success := 0, failure := 0, timeout := 0, reject := 0 }

/-- Observable events of user handler invocations and state-change fan-out. -/
inductive Event
  | failureCall (id : Nat)
  | successCall (id : Nat)
  | stateChange (id : Nat) (fromState toState : State) (stats : Stats)
deriving DecidableEq, Repr

/-- The outcome of one restrictor Check call for the call under consideration
(restrictors are external collaborators; only their observable answer enters
the breaker). -/
structure RestrictorOutcome where
  ok : Bool
  err : Option GoError
deriving DecidableEq, Repr

/-- Outcome of dispatching the user operation under the deadline invoker:
it completes with a value, completes with an error, or the deadline expires. -/
inductive OpOutcome
  | ok
  | fail (e : GoError)
  | timeout
deriving DecidableEq, Repr

/-- Handler chains per state; the Go map from State to slices, with the three
populated keys.  Reading the chain of an unknown state yields the empty chain
(Go map miss returns a nil slice). -/
structure HandlerMap (α : Type) where
  onClose : List α
  onHalfOpen : List α
  onOpen : List α
deriving DecidableEq, Repr

def HandlerMap.get (h : HandlerMap α) : State → List α
  | .closed => h.onClose
  | .halfOpen => h.onHalfOpen
  | .opened => h.onOpen
  | .unknown => []

def HandlerMap.set (h : HandlerMap α) : State → List α → HandlerMap α
  | .closed, l => { h with onClose := l }
  | .halfOpen, l => { h with onHalfOpen := l }
  | .opened, l => { h with onOpen := l }
  | .unknown, _ => h

/-- The Shift breaker (shift.go struct Shift).  The resetter (pending
open-to-half-open scheduler, a time.AfterFunc handle) is modelled by an armed
flag; the reset timer object has no observable state here (ConstantTimer.Reset
and Next do not change breaker state). -/
structure Shift where
  name : String
  state : State
  counter : CounterM
  resetterArmed : Bool
  halfOpenCloser : Option SuccessHandler
  halfOpenOpener : Option FailureHandler
  closeOpener : Option FailureHandler
  successHandlers : HandlerMap SuccessHandler
  failureHandlers : HandlerMap FailureHandler
  restrictors : List RestrictorOutcome
  stateChangeHandlers : List Nat
  log : List Event
deriving DecidableEq, Repr

/-- Shift.stats: snapshot of the four metrics (option.go stats + newStats). -/
def Shift.statsView (s : Shift) : Stats :=
  ⟨s.counter.success, s.counter.failure, s.counter.timeout, s.counter.reject⟩

/-- Shift.close (option.go): set state, ResetTimer.Reset (no observable model
state), reset the counter.  The pending resetter is NOT touched here. -/
def Shift.closeT (s : Shift) : Shift :=
  { s with state := .closed, counter := s.counter.reset }

/-- Shift.halfOpen (option.go): set state, reset the counter. -/
def Shift.halfOpenT (s : Shift) : Shift :=
  { s with state := .halfOpen, counter := s.counter.reset }

/-- Shift.open (option.go): ResetTimer.Next(reason) (duration, not modelled),
stop a possibly active resetter and arm a fresh one, set state, reset the
counter. -/
def Shift.openT (s : Shift) (_reason : Option GoError) : Shift :=
  { s with resetterArmed := true, state := .opened, counter := s.counter.reset }

/-- Shift.trip (lower-case, option.go): under the lock, reject a trip to the
current state or to an unknown state, otherwise perform the per-state side
effects.  Returns the new breaker, the previous state and the error. -/
def Shift.tripInner (s : Shift) (toSt : State) (reason : Option GoError) :
    Shift × State × Option GoError :=
  if s.state = toSt then
    (s, s.state, some (.isAlreadyInDesiredState s.name s.state))
  else
    match toSt with
    | .closed => (s.closeT, s.state, none)
    | .halfOpen => (s.halfOpenT, s.state, none)
    | .opened => (s.openT reason, s.state, none)
    | .unknown => (s, s.state, some (.unknownState toSt))

/-- Shift.runStateChangeCallbacks: every state-change handler is invoked with
(from, to, stats); invocations are logged. -/
def Shift.runStateChangeCallbacks (s : Shift) (fromState toState : State)
    (stats : Stats) : Shift :=
  { s with
    log := s.log ++ s.stateChangeHandlers.map
      (fun id => .stateChange id fromState toState stats) }

/-- Shift.Trip (option.go): snapshot the stats, trip, and on success fan out
to the state-change handlers with the pre-transition stats. -/
def Shift.Trip (s : Shift) (toSt : State) (reason : Option GoError) :
    Shift × Option GoError :=
  let stats := s.statsView
  let (s1, fromState, err) := s.tripInner toSt reason
  match err with
  | some e => (s1, some e)
  | none => (s1.runStateChangeCallbacks fromState toSt stats, none)

/-- The resetter firing (the time.AfterFunc body in Shift.open): consume the
one-shot timer and Trip to half-open, discarding the error. -/
def Shift.fireResetter (s : Shift) : Shift :=
  if s.resetterArmed then
    (({ s with resetterArmed := false }).Trip .halfOpen none).1
  else s

/-- requests as computed by both the WithOpener and WithCloser handlers:
stats.SuccessCount + stats.FailureCount - stats.RejectCount in uint32
arithmetic. -/
def requestsOf (stats : Stats) : Nat :=
  u32sub (u32add stats.SuccessCount stats.FailureCount) stats.RejectCount

/-- Body of the failure handler built by WithOpener: below minRequests do
nothing, otherwise trip to open (ignoring the Trip error) exactly when the
success ratio is below minSuccessRatio. -/
def Shift.openerLogic (s : Shift) (minSuccessRatio : ℚ) (minRequests : Nat)
    (stats : Stats) : Shift :=
  let requests := requestsOf stats
  if requests < minRequests then s
  else
    let ratio : ℚ := (stats.SuccessCount : ℚ) / (requests : ℚ) * 100
    if ratio < minSuccessRatio then
      (s.Trip .opened (some .failureThresholdReached)).1
    else s

/-- Body of the success handler built by WithCloser: below minRequests do
nothing, otherwise trip to close (ignoring the Trip error) exactly when the
success ratio reaches minSuccessRatio. -/
def Shift.closerLogic (s : Shift) (minSuccessRatio : ℚ) (minRequests : Nat)
    (stats : Stats) : Shift :=
  let requests := requestsOf stats
  if requests < minRequests then s
  else
    let ratio : ℚ := (stats.SuccessCount : ℚ) / (requests : ℚ) * 100
    if minSuccessRatio ≤ ratio then (s.Trip .closed none).1
    else s

/-- Dispatch one failure handler with the stats snapshot from the context. -/
def Shift.runFailureHandler (s : Shift) (h : FailureHandler) (stats : Stats) :
    Shift :=
  match h with
  | .opener r m => s.openerLogic r m stats
  | .user id => { s with log := s.log ++ [.failureCall id] }

/-- Dispatch one success handler with the stats snapshot from the context. -/
def Shift.runSuccessHandler (s : Shift) (h : SuccessHandler) (stats : Stats) :
    Shift :=
  match h with
  | .closer r m => s.closerLogic r m stats
  | .user id => { s with log := s.log ++ [.successCall id] }

/-- Shift.runFailureCallbacks (option.go): increment the failure metric; if
the chain of the snapshot state is non-empty, compute the stats snapshot once
and run each handler with it in order. -/
def Shift.runFailureCallbacks (s : Shift) (snapshot : State) : Shift :=
  let s := { s with counter := s.counter.increment metricFailure }
  match s.failureHandlers.get snapshot with
  | [] => s
  | handlers =>
    let stats := s.statsView
    handlers.foldl (fun acc h => acc.runFailureHandler h stats) s

/-- Shift.runSuccessCallbacks (option.go): increment the success metric; if
the chain of the snapshot state is non-empty, compute the stats snapshot once
and run each handler with it in order. -/
def Shift.runSuccessCallbacks (s : Shift) (snapshot : State) : Shift :=
  let s := { s with counter := s.counter.increment metricSuccess }
  match s.successHandlers.get snapshot with
  | [] => s
  | handlers =>
    let stats := s.statsView
    handlers.foldl (fun acc h => acc.runSuccessHandler h stats) s

/-- The restrictor gate of Shift.run: check each restrictor in order; the
first failing Check yields a rejection carrying that restrictor error. -/
def runRestrictors : List RestrictorOutcome → Option (Option GoError)
  | [] => none
  | r :: rest => if r.ok then runRestrictors rest else some r.err

/-- onOpenInvoker.invoke (invokers.go): invoke the reject callback (counter
increment of the reject metric) and return the on-open-state error.  The
operation is not dispatched. -/
def onOpenInvoke (c : CounterM) : CounterM × Option GoError :=
  (c.increment metricReject, some .isOnOpenState)

/-- deadlineInvoker.invoke (invokers.go) for the close and half-open states,
by outcome: deadline expiry invokes the timeout callback and returns the
invocation-timeout error; otherwise the operation result passes through.  The
Bool records that the operation was dispatched. -/
def deadlineInvoke (c : CounterM) (op : OpOutcome) :
    CounterM × Option Unit × Option GoError × Bool :=
  match op with
  | .ok => (c, some (), none, true)
  | .fail e => (c, none, some e, true)
  | .timeout => (c.increment metricTimeout, none, some .invocationTimeout, true)

/-- Shift.run (option.go): restrictor gate, then dispatch through the invoker
selected by the snapshot state.  Result: breaker, result value, error, and
whether the operation was dispatched.  A snapshot state with no invoker (the
unknown state) makes the Go code dereference a nil interface; this is the
none case. -/
def Shift.runLow (s : Shift) (snapshot : State) (op : OpOutcome) :
    Option (Shift × Option Unit × Option GoError × Bool) :=
  match runRestrictors s.restrictors with
  | some e =>
    some ({ s with counter := s.counter.increment metricReject }, none, e, false)
  | none =>
    match snapshot with
    | .opened =>
      let (c, e) := onOpenInvoke s.counter
      some ({ s with counter := c }, none, e, false)
    | .closed =>
      let (c, r, e, d) := deadlineInvoke s.counter op
      some ({ s with counter := c }, r, e, d)
    | .halfOpen =>
      let (c, r, e, d) := deadlineInvoke s.counter op
      some ({ s with counter := c }, r, e, d)
    | .unknown => none

/-- Shift.runWithCallbacks (option.go): wrap a non-nil error with the breaker
name and fan out to the failure chain, otherwise fan out to the success
chain. -/
def Shift.runWithCallbacks (s : Shift) (snapshot : State) (op : OpOutcome) :
    Option (Shift × Option Unit × Option GoError × Bool) :=
  match s.runLow snapshot op with
  | none => none
  | some (s1, res, err, d) =>
    match err with
    | some e =>
      some (s1.runFailureCallbacks snapshot, res,
        some (.invocation s.name e), d)
    | none => some (s1.runSuccessCallbacks snapshot, res, none, d)

/-- Shift.Run (option.go): snapshot the current state into the context and
run with callbacks. -/
def Shift.Run (s : Shift) (op : OpOutcome) :
    Option (Shift × Option Unit × Option GoError × Bool) :=
  s.runWithCallbacks s.state op

/-- Constructor options (shift.go With* functions).  User-supplied handlers
and restrictors may be nil in Go; a none entry models a nil value. -/
inductive OptionV
  | withInitialState (st : State)
  | withRestrictors (rs : List (Option RestrictorOutcome))
  | withStateChangeHandlers (hs : List (Option Nat))
  | withSuccessHandlers (st : State) (hs : List (Option SuccessHandler))
  | withFailureHandlers (st : State) (hs : List (Option FailureHandler))
  | withOpener (st : State) (minSuccessRatio : ℚ) (minRequests : Nat)
  | withCloser (minSuccessRatio : ℚ) (minRequests : Nat)
deriving DecidableEq, Repr

/-- Apply one option to the breaker under construction, mirroring the option
closures in shift.go (including which options validate and which do not).
WithInitialState sets the state without any validation. -/
def applyOption (s : Shift) : OptionV → Except GoError Shift
  | .withInitialState st => .ok { s with state := st }
  | .withRestrictors rs =>
    if rs.any (·.isNone) then
      .error (.invalidOption "restrictor" "can't be nil")
    else .ok { s with restrictors := rs.reduceOption }
  | .withStateChangeHandlers hs =>
    if hs.any (·.isNone) then
      .error (.invalidOption "on state change handler" "can't be nil")
    else .ok { s with stateChangeHandlers := hs.reduceOption }
  | .withSuccessHandlers st hs =>
    if hs.any (·.isNone) then
      .error (.invalidOption "on success handler" "can't be nil")
    else
      .ok { s with successHandlers :=
        s.successHandlers.set st (s.successHandlers.get st ++ hs.reduceOption) }
  | .withFailureHandlers st hs =>
    if hs.any (·.isNone) then
      .error (.invalidOption "failure handler" "can't be nil")
    else
      .ok { s with failureHandlers :=
        s.failureHandlers.set st (s.failureHandlers.get st ++ hs.reduceOption) }
  | .withOpener st r m =>
    if ¬(st.isClose || st.isHalfOpen) then
      .error (.invalidOption "state for failure criteria"
        "can only be applied to 'close' and 'half open' states")
    else if r ≤ 0 ∨ 100 < r then
      .error (.invalidOption "min success ratio to trip to 'open' state"
        "can be greater than 0.0 and less than equal to 100.0")
    else if m < 1 then
      .error (.invalidOption "min requests to check success ratio"
        "must be positive int")
    else if st.isHalfOpen then .ok { s with halfOpenOpener := some (.opener r m) }
    else .ok { s with closeOpener := some (.opener r m) }
  | .withCloser r m =>
    if r ≤ 0 ∨ 100 < r then
      .error (.invalidOption "min success ratio to trip to 'close' state"
        "can be greater than 0.0 and less than equal to 100.0")
    else if m < 1 then
      .error (.invalidOption "min requests to check success ratio"
        "must be positive int")
    else .ok { s with halfOpenCloser := some (.closer r m) }

/-- Default thresholds from shift.go. -/
def optionDefaultMinSuccessRatioForCloseOpener : ℚ := 90

def optionDefaultMinSuccessRatioForHalfOpenOpener : ℚ := 70

def optionDefaultMinSuccessRatioForHalfOpenCloser : ℚ := 85

def optionDefaultMinRequests : Nat := 10

/-- The zero-valued Shift built at the top of New, before options run: closed
state, fresh counter, an immediately-fired (disarmed) resetter, empty chains. -/
def defaultShift (name : String) : Shift where
  name := name
  state := .closed
  counter := ⟨0, 0, 0, 0, []⟩
  resetterArmed := false
  halfOpenCloser := none
  halfOpenOpener := none
  closeOpener := none
  successHandlers := ⟨[], [], []⟩
  failureHandlers := ⟨[], [], []⟩
  restrictors := []
  stateChangeHandlers := []
  log := []

/-- New (shift.go): apply the options in order aborting on the first error,
fill in the default opener and closer policies where absent, then prepend the
auto-trip handlers to the handler chains.  The prepends reproduce the source
lines exactly: the chain for the half-open failure handlers is prepended with
s.closeOpener (shift.go line 406), not with s.halfOpenOpener. -/
def New (name : String) (opts : List OptionV) : Except GoError Shift := do
  let s ← opts.foldlM applyOption (defaultShift name)
  let dco : FailureHandler :=
    .opener optionDefaultMinSuccessRatioForCloseOpener optionDefaultMinRequests
  let dho : FailureHandler :=
    .opener optionDefaultMinSuccessRatioForHalfOpenOpener optionDefaultMinRequests
  let dhc : SuccessHandler :=
    .closer optionDefaultMinSuccessRatioForHalfOpenCloser optionDefaultMinRequests
  let s := if s.closeOpener.isNone then { s with closeOpener := some dco } else s
  let s := { s with failureHandlers :=
    s.failureHandlers.set .closed (s.closeOpener.toList ++ s.failureHandlers.onClose) }
  let s := if s.halfOpenOpener.isNone then { s with halfOpenOpener := some dho } else s
  let s := { s with failureHandlers :=
    s.failureHandlers.set .halfOpen (s.closeOpener.toList ++ s.failureHandlers.onHalfOpen) }
  let s := if s.halfOpenCloser.isNone then { s with halfOpenCloser := some dhc } else s
  let s := { s with successHandlers :=
    s.successHandlers.set .halfOpen (s.halfOpenCloser.toList ++ s.successHandlers.onHalfOpen) }
  return s

end ShiftModel

/-!
Embedding of counter/time_bucket_counter.go.  A Go bucket is a
map[string]uint32; it is modelled as an association list with first-match
lookup defaulting to zero (a missing key reads as 0, as in Go).  Values are
kept reduced modulo 2^32.  The rotation timer is real time and is not
modelled; the drop step models one firing of the rotation task.
-/

namespace CounterPkg

open ShiftModel (W u32add u32sub)

/-- bucket map[string]uint32. -/
abbrev Bucket := List (String × Nat)

/-- Map lookup with Go zero-value default. -/
def bget (b : Bucket) (m : String) : Nat :=
  match b.find? (fun p => p.1 == m) with
  | some p => p.2
  | none => 0

/-- Map key membership. -/
def hasKey (b : Bucket) (m : String) : Bool :=
  (b.find? (fun p => p.1 == m)).isSome

/-- Map store (insert or overwrite). -/
def bset (b : Bucket) (m : String) (v : Nat) : Bucket :=
  match b with
  | [] => [(m, v)]
  | p :: rest => if p.1 == m then (m, v) :: rest else p :: bset rest m v

/-- The uint32 increment b[m]++ of a Go map entry. -/
def bincr (b : Bucket) (m : String) : Bucket :=
  bset b m (u32add (bget b m) 1)

/-- TimeBucketCounter: the window aggregate and the ring of buckets (the last
list entry is the current bucket).  The duration and rotation timer carry no
model state. -/
structure TimeBucketCounter where
  stats : Bucket
  buckets : List Bucket
deriving DecidableEq, Repr

/-- Reset: fresh aggregate, fresh buckets of the same capacity (the rotation
timer is also re-armed; not modelled). -/
def Reset (c : TimeBucketCounter) : TimeBucketCounter :=
  ⟨[], c.buckets.map (fun _ => [])⟩

/-- NewTimeBucketCounter: validate capacity and bucket duration (given in
nanoseconds, as Go durations are), then build the counter and Reset it. -/
def NewTimeBucketCounter (capacity : Nat) (durationNs : Nat) :
    Except ShiftModel.GoError TimeBucketCounter :=
  if capacity < 1 then
    .error (.invalidOption "time bucket counter capacity" "positive integer")
  else if durationNs < 1000000000 then
    .error (.invalidOption "time bucket counter duration"
      "positive duration(greater than or equal to a second)")
  else
    .ok (Reset ⟨[], List.replicate capacity []⟩)

/-- Update of the current (last) bucket: c.buckets[len-1][metric]++.  On an
empty ring the Go code would index out of range; construction guarantees a
positive capacity. -/
def incrLast : List Bucket → String → List Bucket
  | [], _ => []
  | [b], m => [bincr b m]
  | b :: rest, m => b :: incrLast rest m

/-- Increment: bump the metric in the aggregate and in the current bucket. -/
def Increment (c : TimeBucketCounter) (m : String) : TimeBucketCounter :=
  ⟨bincr c.stats m, incrLast c.buckets m⟩

/-- The aggregate update of drop: for each metric in the aggregate, subtract
the oldest bucket count (uint32 subtraction). -/
def dropStats (stats : Bucket) (b0 : Bucket) : Bucket :=
  stats.map (fun p => (p.1, u32sub p.2 (bget b0 p.1)))

/-- drop: one firing of the rotation task (the re-arming of the timer is not
modelled): subtract the oldest bucket from the aggregate, shift the ring left
by one, and install an empty current bucket. -/
def drop (c : TimeBucketCounter) : TimeBucketCounter :=
  match c.buckets with
  | [] => c
  | b0 :: rest => ⟨dropStats c.stats b0, rest ++ [[]]⟩

/-- Stats: the aggregate values for the requested metrics. -/
def StatsOf (c : TimeBucketCounter) (metrics : List String) :
    List (String × Nat) :=
  metrics.map (fun m => (m, bget c.stats m))

/-- Sum of one metric across all buckets of the ring. -/
def bucketSum (bs : List Bucket) (m : String) : Nat :=
  (bs.map (fun b => bget b m)).sum

/-- The window-aggregate equality the spec states: every aggregate entry is
the uint32 sum of that metric across all buckets. -/
def aggEq (c : TimeBucketCounter) : Prop :=
  ∀ m, bget c.stats m = bucketSum c.buckets m % W

/-- Auxiliary invariant carried through the preservation proof: the aggregate
equality, uint32-reduced bucket entries, and aggregate keys covering all
bucket keys (which is how drop can iterate over the aggregate keys only). -/
def Inv (c : TimeBucketCounter) : Prop :=
  aggEq c ∧
  (∀ m, ∀ b ∈ c.buckets, bget b m < W) ∧
  (∀ m, ∀ b ∈ c.buckets, hasKey b m → hasKey c.stats m)

end CounterPkg

namespace ShiftModel

/-- Number of increment events of a given metric in a list of events. -/
def countMetric (l : List String) (m : String) : Nat :=
  (l.filter (fun x => x == m)).length

/-- The increment events a step from one breaker to another appended to the
counter (increments are only ever appended). -/
def runDelta (before after : Shift) : List String :=
  after.counter.events.drop before.counter.events.length

/-- The breaker built by New with default options (concrete evaluation
vehicle; getD is never exercised since construction succeeds). -/
def newDefault : Shift :=
  ((New "cb" []).toOption).getD (defaultShift "cb")

/-- The breaker built by New with an Unknown initial state. -/
def newUnknownInit : Shift :=
  ((New "cb" [.withInitialState .unknown]).toOption).getD (defaultShift "cb")

/-- A default breaker with a single restrictor whose Check answers
(false, nil). -/
def newNilErrRestrictor : Shift :=
  ((New "cb" [.withRestrictors [some ⟨false, none⟩]]).toOption).getD
    (defaultShift "cb")

/-- The default breaker tripped to the open state (arms the resetter). -/
def openedDefault : Shift :=
  (newDefault.Trip .opened none).1

end ShiftModel
namespace ShiftModel

/-! Helper lemmas on the trip machinery. -/

theorem trip_same (s : Shift) (toSt : State) (r : Option GoError)
    (h : s.state = toSt) :
    s.Trip toSt r = (s, some (.isAlreadyInDesiredState s.name s.state)) := by
  simp [Shift.Trip, Shift.tripInner, h]

theorem trip_unknown_err (s : Shift) (r : Option GoError)
    (h : s.state ≠ .unknown) :
    s.Trip .unknown r = (s, some (.unknownState .unknown)) := by
  simp [Shift.Trip, Shift.tripInner, h]

theorem trip_closed_eq (s : Shift) (r : Option GoError)
    (h : s.state ≠ .closed) :
    s.Trip .closed r =
      ((s.closeT).runStateChangeCallbacks s.state .closed s.statsView, none) := by
  simp [Shift.Trip, Shift.tripInner, h]

theorem trip_halfOpen_eq (s : Shift) (r : Option GoError)
    (h : s.state ≠ .halfOpen) :
    s.Trip .halfOpen r =
      ((s.halfOpenT).runStateChangeCallbacks s.state .halfOpen s.statsView, none) := by
  simp [Shift.Trip, Shift.tripInner, h]

theorem trip_opened_eq (s : Shift) (r : Option GoError)
    (h : s.state ≠ .opened) :
    s.Trip .opened r =
      ((s.openT r).runStateChangeCallbacks s.state .opened s.statsView, none) := by
  simp [Shift.Trip, Shift.tripInner, h]

end ShiftModel
namespace ShiftModel

/-! Field observations and event-log preservation. -/

theorem runStateChangeCallbacks_state (s : Shift) (f t : State) (st : Stats) :
    (s.runStateChangeCallbacks f t st).state = s.state := rfl

theorem increment_events (c : CounterM) (m : String) :
    (c.increment m).events = c.events ++ [m] := by
  unfold CounterM.increment
  split_ifs <;> rfl

theorem trip_events (s : Shift) (toSt : State) (r : Option GoError) :
    ((s.Trip toSt r).1).counter.events = s.counter.events := by
  by_cases h : s.state = toSt
  · rw [trip_same s toSt r h]
  · cases toSt
    · rw [trip_unknown_err s r h]
    · rw [trip_closed_eq s r h]
      rfl
    · rw [trip_halfOpen_eq s r h]
      rfl
    · rw [trip_opened_eq s r h]
      rfl

theorem openerLogic_events (s : Shift) (r : ℚ) (m : Nat) (st : Stats) :
    (s.openerLogic r m st).counter.events = s.counter.events := by
  simp only [Shift.openerLogic]
  split_ifs with h1 h2
  · rfl
  · exact trip_events s .opened (some .failureThresholdReached)
  · rfl

theorem closerLogic_events (s : Shift) (r : ℚ) (m : Nat) (st : Stats) :
    (s.closerLogic r m st).counter.events = s.counter.events := by
  simp only [Shift.closerLogic]
  split_ifs with h1 h2
  · rfl
  · exact trip_events s .closed none
  · rfl

theorem runFailureHandler_events (s : Shift) (h : FailureHandler) (st : Stats) :
    (s.runFailureHandler h st).counter.events = s.counter.events := by
  cases h with
  | opener r m => exact openerLogic_events s r m st
  | user id => rfl

theorem runSuccessHandler_events (s : Shift) (h : SuccessHandler) (st : Stats) :
    (s.runSuccessHandler h st).counter.events = s.counter.events := by
  cases h with
  | closer r m => exact closerLogic_events s r m st
  | user id => rfl

theorem foldl_failure_events (l : List FailureHandler) (st : Stats) :
    ∀ s : Shift,
      (l.foldl (fun acc h => acc.runFailureHandler h st) s).counter.events =
        s.counter.events := by
  induction l with
  | nil => intro s; rfl
  | cons h t ih =>
    intro s
    rw [List.foldl_cons, ih, runFailureHandler_events]

theorem foldl_success_events (l : List SuccessHandler) (st : Stats) :
    ∀ s : Shift,
      (l.foldl (fun acc h => acc.runSuccessHandler h st) s).counter.events =
        s.counter.events := by
  induction l with
  | nil => intro s; rfl
  | cons h t ih =>
    intro s
    rw [List.foldl_cons, ih, runSuccessHandler_events]

theorem runFailureCallbacks_events (s : Shift) (snapshot : State) :
    (s.runFailureCallbacks snapshot).counter.events =
      s.counter.events ++ [metricFailure] := by
  unfold Shift.runFailureCallbacks
  cases hl : s.failureHandlers.get snapshot with
  | nil => simp [hl, increment_events]
  | cons h t =>
    simp only [hl]
    rw [foldl_failure_events]
    simp [increment_events]

theorem runSuccessCallbacks_events (s : Shift) (snapshot : State) :
    (s.runSuccessCallbacks snapshot).counter.events =
      s.counter.events ++ [metricSuccess] := by
  unfold Shift.runSuccessCallbacks
  cases hl : s.successHandlers.get snapshot with
  | nil => simp [hl, increment_events]
  | cons h t =>
    simp only [hl]
    rw [foldl_success_events]
    simp [increment_events]

end ShiftModel
namespace ShiftModel

/-- Claim C7: tripping to the current state fails with the
already-in-desired-state error and tripping to Unknown fails with the
unknown-state error; in both cases the breaker (state, counter, scheduler,
logs) is returned unchanged, so no state-change handler ran. -/
theorem C7_trip_rejections :
    ∀ (s : Shift) (toSt : State) (r : Option GoError),
      (s.state = toSt →
        s.Trip toSt r = (s, some (.isAlreadyInDesiredState s.name s.state))) ∧
      (toSt = .unknown → s.state ≠ .unknown →
        s.Trip toSt r = (s, some (.unknownState toSt))) := by
  intro s toSt r
  refine ⟨trip_same s toSt r, ?_⟩
  intro ht h
  subst ht
  exact trip_unknown_err s r h

theorem C7_witness :
    newDefault.state = .closed ∧
    newDefault.Trip .closed none =
      (newDefault, some (.isAlreadyInDesiredState "cb" .closed)) ∧
    newDefault.Trip .unknown none =
      (newDefault, some (.unknownState .unknown)) := by
  refine ⟨rfl, ?_, ?_⟩
  · exact (C7_trip_rejections newDefault .closed none).1 rfl
  · exact (C7_trip_rejections newDefault .unknown none).2 rfl (by decide)

/-- Claim C2 counterexample: from the default breaker tripped to Open (with
the scheduler armed), an external trip to Closed leaves the scheduler armed,
and its later firing moves the breaker to HalfOpen: the transition entering
Closed does not stop the pending scheduler. -/
theorem C2_counterexample :
    openedDefault.state = .opened ∧
    openedDefault.resetterArmed = true ∧
    ((openedDefault.Trip .closed none).1).resetterArmed = true ∧
    ((openedDefault.Trip .closed none).1).state = .closed ∧
    (((openedDefault.Trip .closed none).1).fireResetter).state = .halfOpen :=
  ⟨rfl, rfl, rfl, rfl, rfl⟩

/-- Claim C2 amended: only the transition entering Open stops (and re-arms)
the open-to-half-open scheduler; the transition entering Closed leaves an
armed scheduler in place, so for every breaker in Open with an armed
scheduler, after trip(Closed) the scheduler is still armed and its firing
trips the breaker to HalfOpen. -/
theorem C2_amended :
    ∀ (s : Shift) (r : Option GoError),
      s.state = .opened → s.resetterArmed = true →
      (s.Trip .closed r).2 = none ∧
      ((s.Trip .closed r).1).state = .closed ∧
      ((s.Trip .closed r).1).resetterArmed = true ∧
      (((s.Trip .closed r).1).fireResetter).state = .halfOpen := by
  intro s r h1 h2
  have hne : s.state ≠ .closed := by rw [h1]; intro hc; cases hc
  rw [trip_closed_eq s r hne]
  refine ⟨rfl, rfl, h2, ?_⟩
  simp only [Shift.fireResetter]
  have harm :
      (((s.closeT).runStateChangeCallbacks s.state .closed s.statsView).resetterArmed) =
        s.resetterArmed := rfl
  rw [harm, h2, if_pos rfl]
  rw [trip_halfOpen_eq _ none (by intro hh; cases hh)]
  rfl

theorem C2_witness :
    openedDefault.state = .opened ∧
    openedDefault.resetterArmed = true ∧
    ((openedDefault.Trip .closed none).2 = none ∧
      ((openedDefault.Trip .closed none).1).state = .closed ∧
      ((openedDefault.Trip .closed none).1).resetterArmed = true ∧
      (((openedDefault.Trip .closed none).1).fireResetter).state = .halfOpen) :=
  ⟨rfl, rfl, C2_amended openedDefault none rfl rfl⟩

/-- Claim C6: the opener handler computes requests with the uint32 formula
successCount + failureCount - rejectCount; below minRequests it does nothing;
otherwise it trips to Open with the failure-threshold-reached reason exactly
when the success ratio is below minSuccessRatio, discarding the Trip error
(when the breaker is already Open the handler leaves it unchanged). -/
theorem C6_opener_handler :
    ∀ (s : Shift) (minRatio : ℚ) (minReq : Nat) (st : Stats),
      1 ≤ minReq →
      (requestsOf st < minReq → s.openerLogic minRatio minReq st = s) ∧
      (minReq ≤ requestsOf st →
        ((st.SuccessCount : ℚ) / (requestsOf st : ℚ) * 100 < minRatio →
          s.openerLogic minRatio minReq st =
            (s.Trip .opened (some .failureThresholdReached)).1 ∧
          (s.state ≠ .opened →
            (s.openerLogic minRatio minReq st).state = .opened) ∧
          (s.state = .opened → s.openerLogic minRatio minReq st = s)) ∧
        (minRatio ≤ (st.SuccessCount : ℚ) / (requestsOf st : ℚ) * 100 →
          s.openerLogic minRatio minReq st = s)) := by
  intro s mr mq st _
  constructor
  · intro h
    simp only [Shift.openerLogic]
    rw [if_pos h]
  · intro h
    have hn : ¬(requestsOf st < mq) := not_lt.mpr h
    constructor
    · intro hr
      refine ⟨?_, ?_, ?_⟩
      · simp only [Shift.openerLogic]
        rw [if_neg hn, if_pos hr]
      · intro hs
        simp only [Shift.openerLogic]
        rw [if_neg hn, if_pos hr, trip_opened_eq s _ hs]
        rfl
      · intro hs
        simp only [Shift.openerLogic]
        rw [if_neg hn, if_pos hr, trip_same s .opened _ hs]
    · intro hr
      have hnr : ¬((st.SuccessCount : ℚ) / (requestsOf st : ℚ) * 100 < mr) :=
        not_lt.mpr hr
      simp only [Shift.openerLogic]
      rw [if_neg hn, if_neg hnr]

theorem requestsOf_8_3_0_0 : requestsOf ⟨8, 3, 0, 0⟩ = 11 := by decide

theorem ratio_8_11_lt_90 :
    (((⟨8, 3, 0, 0⟩ : Stats).SuccessCount : ℚ) /
      ((requestsOf ⟨8, 3, 0, 0⟩ : Nat) : ℚ) * 100 < 90) := by
  rw [requestsOf_8_3_0_0]
  norm_num

theorem C6_witness :
    (1 ≤ 10 ∧ 10 ≤ requestsOf ⟨8, 3, 0, 0⟩ ∧
      (((⟨8, 3, 0, 0⟩ : Stats).SuccessCount : ℚ) /
        ((requestsOf ⟨8, 3, 0, 0⟩ : Nat) : ℚ) * 100 < 90)) ∧
    newDefault.openerLogic 90 10 ⟨8, 3, 0, 0⟩ =
      (newDefault.Trip .opened (some .failureThresholdReached)).1 :=
  ⟨⟨by decide, by decide, ratio_8_11_lt_90⟩,
    (((C6_opener_handler newDefault 90 10 ⟨8, 3, 0, 0⟩ (by decide)).2
      (by decide)).1 ratio_8_11_lt_90).1⟩

end ShiftModel
namespace ShiftModel

/-- Claim C5 counterexample: construction with an Unknown initial state
succeeds and yields a breaker whose state is Unknown: WithInitialState is not
validated. -/
theorem C5_counterexample :
    New "cb" [.withInitialState .unknown] = .ok newUnknownInit ∧
    newUnknownInit.state = .unknown :=
  ⟨rfl, rfl⟩

/-- Claim C5 amended: construction aborts with the option error when an
option that validates fails (for example an opener bound to the Open state),
but WithInitialState performs no validation: for every state st, including
Unknown, New(name, WithInitialState(st)) succeeds and the breaker state is
st. -/
theorem C5_amended :
    (∀ (name : String) (st : State),
      ∃ s, New name [.withInitialState st] = .ok s ∧ s.state = st) ∧
    (∀ name : String,
      New name [.withOpener .opened 95 10] =
        .error (.invalidOption "state for failure criteria"
          "can only be applied to 'close' and 'half open' states")) := by
  constructor
  · intro name st
    exact ⟨_, rfl, rfl⟩
  · intro name
    rfl

/-! Helper equations for the opener branches (used for concrete runs). -/

theorem openerLogic_eq_low (s : Shift) (mr : ℚ) (mq : Nat) (st : Stats)
    (h : requestsOf st < mq) : s.openerLogic mr mq st = s := by
  simp only [Shift.openerLogic]
  rw [if_pos h]

theorem openerLogic_eq_trip (s : Shift) (mr : ℚ) (mq : Nat) (st : Stats)
    (h1 : ¬(requestsOf st < mq))
    (h2 : (st.SuccessCount : ℚ) / (requestsOf st : ℚ) * 100 < mr) :
    s.openerLogic mr mq st = (s.Trip .opened (some .failureThresholdReached)).1 := by
  simp only [Shift.openerLogic]
  rw [if_neg h1, if_pos h2]

theorem openerLogic_eq_keep (s : Shift) (mr : ℚ) (mq : Nat) (st : Stats)
    (h1 : ¬(requestsOf st < mq))
    (h2 : ¬((st.SuccessCount : ℚ) / (requestsOf st : ℚ) * 100 < mr)) :
    s.openerLogic mr mq st = s := by
  simp only [Shift.openerLogic]
  rw [if_neg h1, if_neg h2]

theorem ratio_8_11_not_lt_70 :
    ¬(((⟨8, 3, 0, 0⟩ : Stats).SuccessCount : ℚ) /
      ((requestsOf ⟨8, 3, 0, 0⟩ : Nat) : ℚ) * 100 < 70) := by
  rw [requestsOf_8_3_0_0]
  norm_num

/-- Claim C1: evaluation of the code at the failing input.  Under default
options the first entry of the HalfOpen failure-handler chain is the
close-opener (90 percent threshold), not the configured half-open-opener (70
percent), which is stored in the halfOpenOpener field but never installed;
consequently a failure in HalfOpen with stats 8 successes, 3 failures is
evaluated against the 90 percent threshold and trips the breaker to Open,
although the 70 percent half-open opener would have left it unchanged. -/
theorem C1_code_eval :
    New "cb" [] = .ok newDefault ∧
    newDefault.halfOpenOpener = some (.opener 70 10) ∧
    (newDefault.failureHandlers.get .halfOpen).head? = some (.opener 90 10) ∧
    (newDefault.failureHandlers.get .closed).head? = some (.opener 90 10) ∧
    (newDefault.successHandlers.get .halfOpen).head? = some (.closer 85 10) ∧
    (({ newDefault with
        state := .halfOpen
        counter := ⟨8, 2, 0, 0, []⟩ }).runFailureCallbacks .halfOpen).state =
      .opened ∧
    ({ newDefault with
        state := .halfOpen
        counter := ⟨8, 3, 0, 0, []⟩ }).openerLogic 70 10 ⟨8, 3, 0, 0⟩ =
      { newDefault with
        state := .halfOpen
        counter := ⟨8, 3, 0, 0, []⟩ } := by
  refine ⟨rfl, rfl, rfl, rfl, rfl, ?_, ?_⟩
  · have step1 :
        ({ newDefault with
          state := .halfOpen
          counter := ⟨8, 2, 0, 0, []⟩ }).runFailureCallbacks .halfOpen =
        ({ newDefault with
          state := .halfOpen
          counter := (⟨8, 2, 0, 0, []⟩ : CounterM).increment metricFailure }).openerLogic
          90 10 ⟨8, 3, 0, 0⟩ := rfl
    rw [step1, openerLogic_eq_trip _ _ _ _ (by decide) ratio_8_11_lt_90,
      trip_opened_eq _ _ (by intro hh; cases hh)]
    rfl
  · exact openerLogic_eq_keep _ _ _ _ (by decide) ratio_8_11_not_lt_70

end ShiftModel
namespace ShiftModel

/-! Helpers for per-call increment accounting. -/

theorem runDelta_of_events (s s1 : Shift) (l : List String)
    (h : s1.counter.events = s.counter.events ++ l) : runDelta s s1 = l := by
  rw [runDelta, h, List.drop_left]

theorem events_inc_then_failure (s : Shift) (m : String) (snapshot : State) :
    (({ s with counter := s.counter.increment m }).runFailureCallbacks
        snapshot).counter.events = s.counter.events ++ ([m] ++ [metricFailure]) := by
  rw [runFailureCallbacks_events]
  show (s.counter.increment m).events ++ [metricFailure] = _
  rw [increment_events, List.append_assoc]

theorem events_inc_then_success (s : Shift) (m : String) (snapshot : State) :
    (({ s with counter := s.counter.increment m }).runSuccessCallbacks
        snapshot).counter.events = s.counter.events ++ ([m] ++ [metricSuccess]) := by
  rw [runSuccessCallbacks_events]
  show (s.counter.increment m).events ++ [metricSuccess] = _
  rw [increment_events, List.append_assoc]

theorem runWithCallbacks_reject (s : Shift) (op : OpOutcome) (snapshot : State)
    (e : Option GoError) (hr : runRestrictors s.restrictors = some e) :
    s.runWithCallbacks snapshot op =
      match e with
      | some e0 =>
        some (({ s with counter := s.counter.increment metricReject
          }).runFailureCallbacks snapshot, none,
          some (.invocation s.name e0), false)
      | none =>
        some (({ s with counter := s.counter.increment metricReject
          }).runSuccessCallbacks snapshot, none, none, false) := by
  cases e <;> simp [Shift.runWithCallbacks, Shift.runLow, hr]

theorem runWithCallbacks_open (s : Shift) (op : OpOutcome)
    (hr : runRestrictors s.restrictors = none) :
    s.runWithCallbacks .opened op =
      some (({ s with counter := s.counter.increment metricReject
        }).runFailureCallbacks .opened, none,
        some (.invocation s.name .isOnOpenState), false) := by
  simp [Shift.runWithCallbacks, Shift.runLow, hr, onOpenInvoke]

theorem runWithCallbacks_deadline (s : Shift) (op : OpOutcome) (snapshot : State)
    (hr : runRestrictors s.restrictors = none)
    (hsnap : snapshot = .closed ∨ snapshot = .halfOpen) :
    s.runWithCallbacks snapshot op =
      match op with
      | .ok => some (s.runSuccessCallbacks snapshot, some (), none, true)
      | .fail e =>
        some (s.runFailureCallbacks snapshot, none,
          some (.invocation s.name e), true)
      | .timeout =>
        some (({ s with counter := s.counter.increment metricTimeout
          }).runFailureCallbacks snapshot, none,
          some (.invocation s.name .invocationTimeout), true) := by
  rcases hsnap with h | h <;> subst h <;> cases op <;>
    simp [Shift.runWithCallbacks, Shift.runLow, hr, deadlineInvoke]

/-- Claim C3 counterexample: a Run on a breaker in the Open state records one
reject increment and one failure increment, so this call adds 2, not 1, to
successCount + failureCount + rejectCount. -/
theorem C3_counterexample :
    (openedDefault.Run .ok).isSome = true ∧
    ((openedDefault.Run .ok).map (fun out =>
        countMetric (runDelta openedDefault out.1) metricSuccess +
        countMetric (runDelta openedDefault out.1) metricFailure +
        countMetric (runDelta openedDefault out.1) metricReject)) = some 2 := by
  decide

/-- Claim C3 amended: every completed Run adds exactly 1 to
successCount + failureCount (a timed-out call counts in failureCount, its
timeout increment outside the sum); a rejected call (restrictor gate or
open-state invoker) additionally adds 1 to rejectCount, so
successCount + failureCount + rejectCount counts rejected calls twice. -/
theorem C3_amended :
    ∀ (s : Shift) (op : OpOutcome), s.state ≠ .unknown →
      ∃ s1 res err d, s.Run op = some (s1, res, err, d) ∧
        countMetric (runDelta s s1) metricSuccess +
          countMetric (runDelta s s1) metricFailure = 1 ∧
        countMetric (runDelta s s1) metricReject =
          (if runRestrictors s.restrictors = none ∧ s.state ≠ .opened then 0
            else 1) := by
  intro s op hs
  cases hr : runRestrictors s.restrictors with
  | some e =>
    cases e with
    | none =>
      have heq : s.Run op = some
          (({ s with counter := s.counter.increment metricReject
            }).runSuccessCallbacks s.state, none, none, false) :=
        runWithCallbacks_reject s op s.state none hr
      refine ⟨_, _, _, _, heq, ?_, ?_⟩
      · rw [runDelta_of_events _ _ _ (events_inc_then_success s metricReject s.state)]
        decide
      · rw [runDelta_of_events _ _ _ (events_inc_then_success s metricReject s.state),
          if_neg (fun h => Option.noConfusion h.1)]
        decide
    | some e0 =>
      have heq : s.Run op = some
          (({ s with counter := s.counter.increment metricReject
            }).runFailureCallbacks s.state, none,
            some (.invocation s.name e0), false) :=
        runWithCallbacks_reject s op s.state (some e0) hr
      refine ⟨_, _, _, _, heq, ?_, ?_⟩
      · rw [runDelta_of_events _ _ _ (events_inc_then_failure s metricReject s.state)]
        decide
      · rw [runDelta_of_events _ _ _ (events_inc_then_failure s metricReject s.state),
          if_neg (fun h => Option.noConfusion h.1)]
        decide
  | none =>
    cases hst : s.state with
    | unknown => exact absurd hst hs
    | opened =>
      have heq : s.Run op = some
          (({ s with counter := s.counter.increment metricReject
            }).runFailureCallbacks s.state, none,
            some (.invocation s.name .isOnOpenState), false) := by
        have h1 := runWithCallbacks_open s op hr
        rw [← hst] at h1
        exact h1
      refine ⟨_, _, _, _, heq, ?_, ?_⟩
      · rw [runDelta_of_events _ _ _ (events_inc_then_failure s metricReject s.state)]
        decide
      · rw [runDelta_of_events _ _ _ (events_inc_then_failure s metricReject s.state)]
        decide
    | closed =>
      cases op with
      | ok =>
        have heq : s.Run .ok = some
            (s.runSuccessCallbacks s.state, some (), none, true) :=
          runWithCallbacks_deadline s .ok s.state hr (Or.inl hst)
        refine ⟨_, _, _, _, heq, ?_, ?_⟩
        · rw [runDelta_of_events _ _ _ (runSuccessCallbacks_events s s.state)]
          decide
        · rw [runDelta_of_events _ _ _ (runSuccessCallbacks_events s s.state)]
          decide
      | fail e0 =>
        have heq : s.Run (.fail e0) = some
            (s.runFailureCallbacks s.state, none,
              some (.invocation s.name e0), true) :=
          runWithCallbacks_deadline s (.fail e0) s.state hr (Or.inl hst)
        refine ⟨_, _, _, _, heq, ?_, ?_⟩
        · rw [runDelta_of_events _ _ _ (runFailureCallbacks_events s s.state)]
          decide
        · rw [runDelta_of_events _ _ _ (runFailureCallbacks_events s s.state)]
          decide
      | timeout =>
        have heq : s.Run .timeout = some
            (({ s with counter := s.counter.increment metricTimeout
              }).runFailureCallbacks s.state, none,
              some (.invocation s.name .invocationTimeout), true) :=
          runWithCallbacks_deadline s .timeout s.state hr (Or.inl hst)
        refine ⟨_, _, _, _, heq, ?_, ?_⟩
        · rw [runDelta_of_events _ _ _ (events_inc_then_failure s metricTimeout s.state)]
          decide
        · rw [runDelta_of_events _ _ _ (events_inc_then_failure s metricTimeout s.state)]
          decide
    | halfOpen =>
      cases op with
      | ok =>
        have heq : s.Run .ok = some
            (s.runSuccessCallbacks s.state, some (), none, true) :=
          runWithCallbacks_deadline s .ok s.state hr (Or.inr hst)
        refine ⟨_, _, _, _, heq, ?_, ?_⟩
        · rw [runDelta_of_events _ _ _ (runSuccessCallbacks_events s s.state)]
          decide
        · rw [runDelta_of_events _ _ _ (runSuccessCallbacks_events s s.state)]
          decide
      | fail e0 =>
        have heq : s.Run (.fail e0) = some
            (s.runFailureCallbacks s.state, none,
              some (.invocation s.name e0), true) :=
          runWithCallbacks_deadline s (.fail e0) s.state hr (Or.inr hst)
        refine ⟨_, _, _, _, heq, ?_, ?_⟩
        · rw [runDelta_of_events _ _ _ (runFailureCallbacks_events s s.state)]
          decide
        · rw [runDelta_of_events _ _ _ (runFailureCallbacks_events s s.state)]
          decide
      | timeout =>
        have heq : s.Run .timeout = some
            (({ s with counter := s.counter.increment metricTimeout
              }).runFailureCallbacks s.state, none,
              some (.invocation s.name .invocationTimeout), true) :=
          runWithCallbacks_deadline s .timeout s.state hr (Or.inr hst)
        refine ⟨_, _, _, _, heq, ?_, ?_⟩
        · rw [runDelta_of_events _ _ _ (events_inc_then_failure s metricTimeout s.state)]
          decide
        · rw [runDelta_of_events _ _ _ (events_inc_then_failure s metricTimeout s.state)]
          decide

theorem C3_witness :
    newDefault.state ≠ .unknown ∧
    (∃ s1 res err d, newDefault.Run .ok = some (s1, res, err, d) ∧
      countMetric (runDelta newDefault s1) metricSuccess +
        countMetric (runDelta newDefault s1) metricFailure = 1 ∧
      countMetric (runDelta newDefault s1) metricReject =
        (if runRestrictors newDefault.restrictors = none ∧
            newDefault.state ≠ .opened then 0 else 1)) :=
  ⟨by decide, C3_amended newDefault .ok (by decide)⟩

end ShiftModel
namespace ShiftModel

theorem runRestrictors_append_false (pre rest : List RestrictorOutcome)
    (e : Option GoError) (hpre : ∀ r ∈ pre, r.ok = true) :
    runRestrictors (pre ++ ⟨false, e⟩ :: rest) = some e := by
  induction pre with
  | nil => rfl
  | cons a t ih =>
    have ha : a.ok = true := hpre a (by simp)
    simp only [List.cons_append, runRestrictors, ha, if_true]
    exact ih (fun r hr => hpre r (by simp [hr]))

/-- Claim C4 counterexample: a restrictor whose Check answers (false, nil)
increments the reject metric, but Run then returns a nil error and takes the
success path (the success metric is incremented): the rejection is not
surfaced as a wrapped invocation error. -/
theorem C4_counterexample :
    newNilErrRestrictor.restrictors = [⟨false, none⟩] ∧
    ((newNilErrRestrictor.Run .ok).map (fun out => (out.2.2.1, out.2.2.2))) =
      some (none, false) ∧
    ((newNilErrRestrictor.Run .ok).map (fun out =>
        (countMetric (runDelta newNilErrRestrictor out.1) metricReject,
          countMetric (runDelta newNilErrRestrictor out.1) metricSuccess))) =
      some (1, 1) := by
  decide

/-- Claim C4 amended: when the first failing restrictor returns false with a
non-nil error, the call is rejected as the claim states: reject is
incremented, the restrictor error is wrapped as an invocation error, the
failure chain of the snapshot state is run, and the wrapped error is
returned.  When the failing restrictor returns false with a nil error, the
reject metric is still incremented but Run returns a nil error and takes the
success path instead. -/
theorem C4_amended :
    ∀ (s : Shift) (op : OpOutcome) (pre rest : List RestrictorOutcome)
      (e : GoError),
      (∀ r ∈ pre, r.ok = true) →
      (s.restrictors = pre ++ ⟨false, some e⟩ :: rest →
        ∃ s1, s.Run op = some (s1, none, some (.invocation s.name e), false) ∧
          s1 = Shift.runFailureCallbacks
            { s with counter := s.counter.increment metricReject } s.state ∧
          countMetric (runDelta s s1) metricReject = 1 ∧
          countMetric (runDelta s s1) metricFailure = 1 ∧
          countMetric (runDelta s s1) metricSuccess = 0) ∧
      (s.restrictors = pre ++ ⟨false, none⟩ :: rest →
        ∃ s1, s.Run op = some (s1, none, none, false) ∧
          s1 = Shift.runSuccessCallbacks
            { s with counter := s.counter.increment metricReject } s.state ∧
          countMetric (runDelta s s1) metricReject = 1 ∧
          countMetric (runDelta s s1) metricSuccess = 1 ∧
          countMetric (runDelta s s1) metricFailure = 0) := by
  intro s op pre rest e hpre
  constructor
  · intro hres
    have hr : runRestrictors s.restrictors = some (some e) := by
      rw [hres]
      exact runRestrictors_append_false pre rest (some e) hpre
    have heq : s.Run op = some
        (({ s with counter := s.counter.increment metricReject
          }).runFailureCallbacks s.state, none,
          some (.invocation s.name e), false) :=
      runWithCallbacks_reject s op s.state (some e) hr
    refine ⟨_, heq, rfl, ?_, ?_, ?_⟩ <;>
      rw [runDelta_of_events _ _ _ (events_inc_then_failure s metricReject s.state)] <;>
      decide
  · intro hres
    have hr : runRestrictors s.restrictors = some none := by
      rw [hres]
      exact runRestrictors_append_false pre rest none hpre
    have heq : s.Run op = some
        (({ s with counter := s.counter.increment metricReject
          }).runSuccessCallbacks s.state, none, none, false) :=
      runWithCallbacks_reject s op s.state none hr
    refine ⟨_, heq, rfl, ?_, ?_, ?_⟩ <;>
      rw [runDelta_of_events _ _ _ (events_inc_then_success s metricReject s.state)] <;>
      decide

theorem C4_witness :
    ∃ s1, newNilErrRestrictor.Run .ok = some
        (s1, none, none, false) ∧
      s1 = Shift.runSuccessCallbacks
        { newNilErrRestrictor with
          counter := newNilErrRestrictor.counter.increment
            metricReject } newNilErrRestrictor.state ∧
      countMetric (runDelta newNilErrRestrictor s1) metricReject = 1 ∧
      countMetric (runDelta newNilErrRestrictor s1) metricSuccess = 1 ∧
      countMetric (runDelta newNilErrRestrictor s1) metricFailure = 0 :=
  (C4_amended newNilErrRestrictor .ok [] [] .isOnOpenState
    (by intro r hr; cases hr)).2 rfl

/-- Claim C8: with the breaker in Open, the user operation is never
dispatched on any path; when the restrictor gate admits the call, the
open-state invoker increments the reject metric through its reject callback
and returns the on-open-state error, which Run wraps with the breaker name
(incrementing the failure metric) and returns. -/
theorem C8_open_invoker :
    ∀ (s : Shift) (op : OpOutcome), s.state = .opened →
      (∀ s1 res err d, s.Run op = some (s1, res, err, d) → d = false) ∧
      (runRestrictors s.restrictors = none →
        ∃ s1, s.Run op = some (s1, none,
            some (.invocation s.name .isOnOpenState), false) ∧
          countMetric (runDelta s s1) metricReject = 1 ∧
          countMetric (runDelta s s1) metricFailure = 1 ∧
          countMetric (runDelta s s1) metricSuccess = 0) := by
  intro s op hs
  constructor
  · intro s1 res err d h
    have hrw : s.runWithCallbacks s.state op = some (s1, res, err, d) := h
    cases hr : runRestrictors s.restrictors with
    | some e =>
      rw [runWithCallbacks_reject s op s.state e hr] at hrw
      cases e with
      | some e0 =>
        simp only [Option.some.injEq, Prod.mk.injEq] at hrw
        exact hrw.2.2.2.symm
      | none =>
        simp only [Option.some.injEq, Prod.mk.injEq] at hrw
        exact hrw.2.2.2.symm
    | none =>
      have h1 := runWithCallbacks_open s op hr
      rw [← hs] at h1
      rw [h1] at hrw
      simp only [Option.some.injEq, Prod.mk.injEq] at hrw
      exact hrw.2.2.2.symm
  · intro hr
    have heq : s.Run op = some
        (({ s with counter := s.counter.increment metricReject
          }).runFailureCallbacks s.state, none,
          some (.invocation s.name .isOnOpenState), false) := by
      have h1 := runWithCallbacks_open s op hr
      rw [← hs] at h1
      exact h1
    refine ⟨_, heq, ?_, ?_, ?_⟩ <;>
      rw [runDelta_of_events _ _ _ (events_inc_then_failure s metricReject s.state)] <;>
      decide

theorem C8_witness :
    openedDefault.state = .opened ∧
    runRestrictors openedDefault.restrictors = none ∧
    (∃ s1, openedDefault.Run .ok = some (s1, none,
        some (.invocation openedDefault.name .isOnOpenState), false) ∧
      countMetric (runDelta openedDefault s1) metricReject = 1 ∧
      countMetric (runDelta openedDefault s1) metricFailure = 1 ∧
      countMetric (runDelta openedDefault s1) metricSuccess = 0) :=
  ⟨rfl, rfl, (C8_open_invoker openedDefault .ok rfl).2 rfl⟩

end ShiftModel
namespace ShiftModel

/-- Claim C10 counterexample: the snapshot with zero successes and failures
and 2^32 - 1 rejects has RejectCount greater than SuccessCount + FailureCount,
yet the wrapped requests value is 1, which is not near 2^32 and does not pass
the default guard of 10 minimum requests: the opener does nothing on it. -/
theorem C10_counterexample :
    0 + 0 < W - 1 ∧
    requestsOf ⟨0, 0, 0, W - 1⟩ = 1 ∧
    requestsOf ⟨0, 0, 0, W - 1⟩ < 10 ∧
    newDefault.openerLogic 70 10 ⟨0, 0, 0, W - 1⟩ = newDefault := by
  decide

/-- Claim C10 amended: requests is computed modulo 2^32 in both threshold
handlers; whenever RejectCount exceeds SuccessCount + FailureCount the
subtraction wraps to 2^32 - (RejectCount - SuccessCount - FailureCount);
whenever that deficit additionally leaves a margin of minRequests below 2^32,
the requests < minRequests guard passes although fewer than minRequests real
requests occurred, and when 100 x SuccessCount is below the wrapped
denominator the computed ratio is below 1 percent. -/
theorem C10_amended :
    ∀ S F T R minReq : Nat, S < W → F < W → R < W → S + F < R →
      requestsOf ⟨S, F, T, R⟩ = W - (R - (S + F)) ∧
      (R - (S + F) ≤ W - minReq → minReq ≤ requestsOf ⟨S, F, T, R⟩) ∧
      (100 * S < W - (R - (S + F)) →
        ((S : Nat) : ℚ) / ((requestsOf ⟨S, F, T, R⟩ : Nat) : ℚ) * 100 < 1) := by
  intro S F T R minReq hS hF hR h
  have hW : 0 < W := by decide
  have hSF : S + F < W := lt_trans h hR
  have h1 : requestsOf ⟨S, F, T, R⟩ = W - (R - (S + F)) := by
    unfold requestsOf u32add u32sub
    rw [Nat.mod_eq_of_lt hSF, Nat.mod_eq_of_lt hSF, Nat.mod_eq_of_lt hR]
    have h2 : S + F + (W - R) = W - (R - (S + F)) := by omega
    rw [h2, Nat.mod_eq_of_lt (by omega)]
  refine ⟨h1, ?_, ?_⟩
  · intro hm
    rw [h1]
    omega
  · intro hnum
    rw [h1]
    have hpos : 0 < W - (R - (S + F)) := by omega
    rw [div_mul_eq_mul_div, div_lt_one (by exact_mod_cast hpos)]
    have h3 : ((S : Nat) : ℚ) * 100 = ((100 * S : Nat) : ℚ) := by
      push_cast
      ring
    rw [h3]
    exact_mod_cast hnum

theorem C10_witness :
    (0 < W ∧ 3 < W ∧ 9 < W ∧ 0 + 3 < 9) ∧
    (requestsOf ⟨0, 3, 0, 9⟩ = W - (9 - (0 + 3)) ∧
      (9 - (0 + 3) ≤ W - 10 → 10 ≤ requestsOf ⟨0, 3, 0, 9⟩) ∧
      (100 * 0 < W - (9 - (0 + 3)) →
        ((0 : Nat) : ℚ) / ((requestsOf ⟨0, 3, 0, 9⟩ : Nat) : ℚ) * 100 < 1)) :=
  ⟨⟨by decide, by decide, by decide, by decide⟩,
    C10_amended 0 3 0 9 10 (by decide) (by decide) (by decide) (by decide)⟩

end ShiftModel
namespace CounterPkg

open ShiftModel (W u32add u32sub)

theorem w_pos : 0 < W := by decide

theorem hasKey_false_bget (b : Bucket) (m : String) (h : hasKey b m = false) :
    bget b m = 0 := by
  unfold hasKey at h
  unfold bget
  cases hf : b.find? (fun p => p.1 == m) with
  | none => rfl
  | some p => rw [hf] at h; cases h

theorem bget_dropStats (stats b0 : Bucket) (m : String) :
    bget (dropStats stats b0) m =
      if hasKey stats m then u32sub (bget stats m) (bget b0 m) else 0 := by
  induction stats with
  | nil => rfl
  | cons p rest ih =>
    cases hpm : (p.1 == m) with
    | true =>
      have hp : p.1 = m := eq_of_beq hpm
      simp [dropStats, bget, hasKey, List.find?, hpm, hp]
    | false =>
      simp only [dropStats, List.map_cons, bget, hasKey, List.find?, hpm]
      exact ih

theorem hasKey_dropStats (stats b0 : Bucket) (m : String) :
    hasKey (dropStats stats b0) m = hasKey stats m := by
  induction stats with
  | nil => rfl
  | cons p rest ih =>
    cases hpm : (p.1 == m) with
    | true => simp [dropStats, hasKey, List.find?, hpm]
    | false =>
      simp only [dropStats, List.map_cons, hasKey, List.find?, hpm]
      exact ih

theorem bget_bset_self (b : Bucket) (m : String) (v : Nat) :
    bget (bset b m v) m = v := by
  induction b with
  | nil => simp [bset, bget, List.find?]
  | cons p rest ih =>
    cases hpm : (p.1 == m) with
    | true => simp [bset, bget, List.find?, hpm]
    | false =>
      simp only [bset, hpm, Bool.false_eq_true, if_false, bget, List.find?]
      exact ih

theorem bget_bset_ne (b : Bucket) (m m' : String) (v : Nat) (h : m' ≠ m) :
    bget (bset b m v) m' = bget b m' := by
  have hmm : (m == m') = false := by
    simp only [beq_eq_false_iff_ne]
    exact fun hh => h hh.symm
  induction b with
  | nil => simp [bset, bget, List.find?, hmm]
  | cons p rest ih =>
    cases hpm : (p.1 == m) with
    | true =>
      have hp : p.1 = m := eq_of_beq hpm
      have hpm' : (p.1 == m') = false := by rw [hp]; exact hmm
      simp [bset, bget, List.find?, hpm, hpm', hmm]
    | false =>
      cases hpm' : (p.1 == m') with
      | true => simp [bset, bget, List.find?, hpm, hpm']
      | false =>
        simp only [bset, hpm, Bool.false_eq_true, if_false, bget, List.find?,
          hpm']
        exact ih

theorem hasKey_bset (b : Bucket) (m m' : String) (v : Nat) :
    hasKey (bset b m v) m' = true ↔ m' = m ∨ hasKey b m' = true := by
  induction b with
  | nil =>
    cases hmm : (m == m') with
    | true =>
      have := eq_of_beq hmm
      simp [bset, hasKey, List.find?, hmm, this.symm]
    | false =>
      have hne : ¬(m' = m) := by
        intro hh
        rw [hh, beq_self_eq_true] at hmm
        cases hmm
      simp [bset, hasKey, List.find?, hmm, hne]
  | cons p rest ih =>
    cases hpm : (p.1 == m) with
    | true =>
      have hp : p.1 = m := eq_of_beq hpm
      cases hmm : (m == m') with
      | true =>
        have := eq_of_beq hmm
        simp [bset, hasKey, List.find?, hpm, hmm, this.symm]
      | false =>
        have hne : ¬(m' = m) := by
          intro hh
          rw [hh, beq_self_eq_true] at hmm
          cases hmm
        have hpm' : (p.1 == m') = false := by rw [hp]; exact hmm
        simp [bset, hasKey, List.find?, hpm, hmm, hpm', hne]
    | false =>
      cases hpm' : (p.1 == m') with
      | true => simp [bset, hasKey, List.find?, hpm, hpm']
      | false =>
        simp only [bset, hpm, Bool.false_eq_true, if_false, hasKey,
          List.find?, hpm']
        exact ih

theorem bget_bincr_self (b : Bucket) (m : String) :
    bget (bincr b m) m = u32add (bget b m) 1 :=
  bget_bset_self b m (u32add (bget b m) 1)

theorem bget_bincr_ne (b : Bucket) (m m' : String) (h : m' ≠ m) :
    bget (bincr b m) m' = bget b m' :=
  bget_bset_ne b m m' (u32add (bget b m) 1) h

theorem bget_bincr_lt (b : Bucket) (m m' : String)
    (hb : ∀ k, bget b k < W) : bget (bincr b m) m' < W := by
  by_cases h : m' = m
  · subst h
    rw [bget_bincr_self]
    exact Nat.mod_lt _ w_pos
  · rw [bget_bincr_ne b m m' h]
    exact hb m'

theorem hasKey_bincr (b : Bucket) (m m' : String) :
    hasKey (bincr b m) m' = true ↔ m' = m ∨ hasKey b m' = true :=
  hasKey_bset b m m' (u32add (bget b m) 1)

end CounterPkg
namespace CounterPkg

open ShiftModel (W u32add u32sub)

theorem bucketSum_nil (m : String) : bucketSum [] m = 0 := rfl

theorem bucketSum_cons (b : Bucket) (bs : List Bucket) (m : String) :
    bucketSum (b :: bs) m = bget b m + bucketSum bs m := by
  simp [bucketSum]

theorem bucketSum_append (bs cs : List Bucket) (m : String) :
    bucketSum (bs ++ cs) m = bucketSum bs m + bucketSum cs m := by
  simp [bucketSum]

theorem bucketSum_all_zero (bs : List Bucket) (m : String)
    (h : ∀ b ∈ bs, bget b m = 0) : bucketSum bs m = 0 := by
  induction bs with
  | nil => rfl
  | cons b rest ih =>
    rw [bucketSum_cons, h b (by simp), ih (fun x hx => h x (by simp [hx]))]

theorem bucketSum_incrLast_self (m : String) :
    ∀ bs : List Bucket, bs ≠ [] → (∀ b ∈ bs, bget b m < W) →
      bucketSum (incrLast bs m) m % W = (bucketSum bs m + 1) % W := by
  intro bs
  induction bs with
  | nil => intro h _; exact absurd rfl h
  | cons b rest ih =>
    intro _ hv
    cases rest with
    | nil =>
      show bucketSum [bincr b m] m % W = _
      rw [bucketSum_cons, bucketSum_cons, bucketSum_nil, bget_bincr_self,
        Nat.add_zero, Nat.add_zero]
      show (bget b m + 1) % W % W = _
      rw [Nat.mod_mod_of_dvd _ dvd_rfl]
    | cons c rest2 =>
      rw [show incrLast (b :: c :: rest2) m = b :: incrLast (c :: rest2) m
          from rfl, bucketSum_cons, bucketSum_cons]
      have ih2 := ih (by simp) (fun x hx => hv x (by simp [hx]))
      rw [Nat.add_mod (bget b m), ih2, ← Nat.add_mod, ← Nat.add_assoc]

theorem bucketSum_incrLast_ne (m m' : String) (h : m' ≠ m) :
    ∀ bs : List Bucket, bucketSum (incrLast bs m) m' = bucketSum bs m' := by
  intro bs
  induction bs with
  | nil => rfl
  | cons b rest ih =>
    cases rest with
    | nil =>
      show bucketSum [bincr b m] m' = _
      rw [bucketSum_cons, bucketSum_cons, bget_bincr_ne b m m' h]
    | cons c rest2 =>
      rw [show incrLast (b :: c :: rest2) m = b :: incrLast (c :: rest2) m
          from rfl, bucketSum_cons, bucketSum_cons, ih]

theorem mem_incrLast (m : String) :
    ∀ (bs : List Bucket) (x : Bucket), x ∈ incrLast bs m →
      x ∈ bs ∨ ∃ b0, b0 ∈ bs ∧ x = bincr b0 m := by
  intro bs
  induction bs with
  | nil => intro x h; exact absurd h (List.not_mem_nil x)
  | cons b rest ih =>
    intro x h
    cases rest with
    | nil =>
      have hx : x = bincr b m := by
        rw [show incrLast [b] m = [bincr b m] from rfl] at h
        simpa using h
      exact Or.inr ⟨b, by simp, hx⟩
    | cons c rest2 =>
      rw [show incrLast (b :: c :: rest2) m = b :: incrLast (c :: rest2) m
          from rfl] at h
      rcases List.mem_cons.mp h with h1 | h1
      · exact Or.inl (by simp [h1])
      · rcases ih x h1 with h2 | ⟨b0, hb0, he⟩
        · exact Or.inl (by simp [h2])
        · exact Or.inr ⟨b0, by simp [hb0], he⟩

theorem mod_sub_lemma (sm v : Nat) (hvW : v < W) (hvS : v ≤ sm) :
    (sm % W + (W - v)) % W = (sm - v) % W := by
  rw [Nat.mod_add_mod]
  have h2 : sm + (W - v) = (sm - v) + W := by omega
  rw [h2, Nat.add_mod_right]

theorem Inv_reset (c : TimeBucketCounter) : Inv (Reset c) := by
  have hmem : ∀ b ∈ (Reset c).buckets, b = ([] : Bucket) := by
    intro b hb
    rcases List.mem_map.mp hb with ⟨a, _, rfl⟩
    rfl
  refine ⟨?_, ?_, ?_⟩
  · intro m
    rw [bucketSum_all_zero _ m (fun b hb => by rw [hmem b hb]; rfl)]
    rfl
  · intro m b hb
    rw [hmem b hb]
    exact w_pos
  · intro m b hb hk
    rw [hmem b hb] at hk
    simp [hasKey, List.find?] at hk

theorem Inv_increment (c : TimeBucketCounter) (m : String) (h : Inv c)
    (hne : c.buckets ≠ []) : Inv (Increment c m) := by
  obtain ⟨h1, h2, h3⟩ := h
  refine ⟨?_, ?_, ?_⟩
  · intro m'
    by_cases hm : m' = m
    · subst hm
      show bget (bincr c.stats m') m' =
        bucketSum (incrLast c.buckets m') m' % W
      rw [bget_bincr_self,
        bucketSum_incrLast_self m' c.buckets hne (fun b hb => h2 m' b hb)]
      show (bget c.stats m' + 1) % W = _
      rw [h1 m', Nat.mod_add_mod]
    · show bget (bincr c.stats m) m' =
        bucketSum (incrLast c.buckets m) m' % W
      rw [bget_bincr_ne _ _ _ hm, bucketSum_incrLast_ne m m' hm, h1 m']
  · intro m' b hb
    rcases mem_incrLast m c.buckets b hb with hb1 | ⟨b0, hb0, rfl⟩
    · exact h2 m' b hb1
    · exact bget_bincr_lt b0 m m' (fun k => h2 k b0 hb0)
  · intro m' b hb hk
    apply (hasKey_bincr c.stats m m').mpr
    rcases mem_incrLast m c.buckets b hb with hb1 | ⟨b0, hb0, rfl⟩
    · exact Or.inr (h3 m' b hb1 hk)
    · rcases (hasKey_bincr b0 m m').mp hk with h4 | h4
      · exact Or.inl h4
      · exact Or.inr (h3 m' b0 hb0 h4)

theorem Inv_drop (c : TimeBucketCounter) (h : Inv c) : Inv (drop c) := by
  obtain ⟨h1, h2, h3⟩ := h
  cases hb : c.buckets with
  | nil =>
    unfold drop
    rw [hb]
    exact ⟨h1, h2, h3⟩
  | cons b0 rest =>
    have hd : drop c = ⟨dropStats c.stats b0, rest ++ [[]]⟩ := by
      unfold drop
      rw [hb]
    rw [hd]
    have hb0mem : b0 ∈ c.buckets := by rw [hb]; simp
    refine ⟨?_, ?_, ?_⟩
    · intro m
      show bget (dropStats c.stats b0) m = bucketSum (rest ++ [[]]) m % W
      rw [bget_dropStats, bucketSum_append,
        show bucketSum [[]] m = 0 from rfl, Nat.add_zero]
      cases hk : hasKey c.stats m with
      | false =>
        simp only [Bool.false_eq_true, if_false]
        have hz : ∀ b ∈ rest, bget b m = 0 := by
          intro b hbr
          apply hasKey_false_bget
          cases hkb : hasKey b m with
          | false => rfl
          | true =>
            have hks : hasKey c.stats m = true :=
              h3 m b (by rw [hb]; simp [hbr]) hkb
            rw [hk] at hks
            cases hks
        rw [bucketSum_all_zero rest m hz]
        rfl
      | true =>
        simp only [if_true]
        have hv0 : bget b0 m < W := h2 m b0 hb0mem
        have hsum : bucketSum c.buckets m = bget b0 m + bucketSum rest m := by
          rw [hb, bucketSum_cons]
        show (bget c.stats m % W + (W - bget b0 m % W)) % W = _
        rw [h1 m, hsum, Nat.mod_eq_of_lt hv0, Nat.mod_mod_of_dvd _ dvd_rfl,
          mod_sub_lemma (bget b0 m + bucketSum rest m) (bget b0 m) hv0
            (Nat.le_add_right _ _), Nat.add_sub_cancel_left]
    · intro m b hbm
      rcases List.mem_append.mp hbm with h4 | h4
      · exact h2 m b (by rw [hb]; simp [h4])
      · have hbe : b = ([] : Bucket) := by simpa using h4
        rw [hbe]
        exact w_pos
    · intro m b hbm hk
      show hasKey (dropStats c.stats b0) m = true
      rw [hasKey_dropStats]
      rcases List.mem_append.mp hbm with h4 | h4
      · exact h3 m b (by rw [hb]; simp [h4]) hk
      · have hbe : b = ([] : Bucket) := by simpa using h4
        rw [hbe] at hk
        simp [hasKey, List.find?] at hk

theorem Inv_of_new (capacity durationNs : Nat) (c : TimeBucketCounter)
    (h : NewTimeBucketCounter capacity durationNs = .ok c) : Inv c := by
  unfold NewTimeBucketCounter at h
  by_cases h1 : capacity < 1
  · rw [if_pos h1] at h
    cases h
  · rw [if_neg h1] at h
    by_cases hd : durationNs < 1000000000
    · rw [if_pos hd] at h
      cases h
    · rw [if_neg hd] at h
      injection h with h'
      rw [← h']
      exact Inv_reset _

end CounterPkg
namespace CounterPkg

/-- Claim C9: for every metric, the window aggregate entry equals the uint32
sum of that metric across all buckets: the equality holds after construction
and after Reset, and it is preserved (together with the auxiliary bucket
invariants) by every Increment on a counter with at least one bucket and by
every rotation (drop). -/
theorem C9_aggregate_invariant :
    (∀ capacity durationNs c,
      NewTimeBucketCounter capacity durationNs = .ok c → Inv c ∧ aggEq c) ∧
    (∀ c, Inv (Reset c) ∧ aggEq (Reset c)) ∧
    (∀ c m, Inv c → c.buckets ≠ [] →
      Inv (Increment c m) ∧ aggEq (Increment c m)) ∧
    (∀ c, Inv c → Inv (drop c) ∧ aggEq (drop c)) := by
  refine ⟨?_, ?_, ?_, ?_⟩
  · intro capacity durationNs c h
    have hi := Inv_of_new capacity durationNs c h
    exact ⟨hi, hi.1⟩
  · intro c
    exact ⟨Inv_reset c, (Inv_reset c).1⟩
  · intro c m h hne
    exact ⟨Inv_increment c m h hne, (Inv_increment c m h hne).1⟩
  · intro c h
    exact ⟨Inv_drop c h, (Inv_drop c h).1⟩

theorem C9_witness :
    NewTimeBucketCounter 2 1000000000 = .ok ⟨[], [[], []]⟩ ∧
    Inv (⟨[], [[], []]⟩ : TimeBucketCounter) ∧
    (Inv (Increment ⟨[], [[], []]⟩ "success") ∧
      aggEq (Increment ⟨[], [[], []]⟩ "success")) ∧
    Inv (drop (Increment ⟨[], [[], []]⟩ "success")) := by
  have h0 := (C9_aggregate_invariant.1 2 1000000000 ⟨[], [[], []]⟩ rfl).1
  have h1 := C9_aggregate_invariant.2.2.1 ⟨[], [[], []]⟩ "success" h0
    (by decide)
  exact ⟨rfl, h0, h1, (C9_aggregate_invariant.2.2.2 _ h1.1).1⟩

end CounterPkg
